import Mathlib

/-!
# Verification of the Draco codec runtime (Babylon.js `dracoCodec.ts` / `dracoDecoder.ts`)

Shallow embedding of the compressed-mesh codec runtime:
* the message protocol and the per-job dispatcher state machine of
  `DracoDecoderClass.decodeMeshToMeshDataAsync` (worker-pool path and in-process path),
* the `DracoCodec` base class state (`_workerPoolPromise` / `_modulePromise`),
  `initialize`, `dispose` and `_GetDefaultNumWorkers`.

JavaScript promises are modelled by their resolved values; event listeners by a
`listening` flag on the job state (an event delivered after `removeEventListener`
does not invoke the handler); the runtime environment (presence of `Worker`, `URL`,
`WebAssembly`, `navigator.hardwareConcurrency`, and of the global decoder module)
by an explicit `Env` record.
-/

namespace Draco

/-- A decoded index buffer: `Uint16Array` or `Uint32Array` (`width32` tags which). -/
structure IndexData where
  width32 : Bool
  values : List Nat
deriving Repr, DecidableEq

/-- One decoded attribute, as pushed into `resultAttributes`
(`AttributeData` in `dracoCompressionWorker`): semantic kind, typed numeric
buffer, component count, byte layout and normalization flag. -/
structure AttributeData where
  kind : String
  data : List Int
  size : Nat
  byteOffset : Nat
  byteStride : Nat
  normalized : Bool
deriving Repr, DecidableEq

/-- The decoded mesh data resolved by `decodeMeshToMeshDataAsync`
(`MeshData` in `dracoDecoder.ts`). `indices` is `null` when no `indices`
message/callback was seen. -/
structure MeshData where
  indices : Option IndexData
  attributes : List AttributeData
  totalVertices : Nat
deriving Repr, DecidableEq

/-- Inbound worker messages (`Message` in `dracoCompressionWorker`), exactly the
tags the dispatcher's `onMessage` switches on. -/
inductive Message where
  | indices (data : IndexData)
  | attribute (kind : String) (data : List Int) (size : Nat) (byteOffset : Nat)
      (byteStride : Nat) (normalized : Bool)
  | decodeMeshDone (totalVertices : Nat)
deriving Repr, DecidableEq

/-- A transport-level `ErrorEvent` from the worker. -/
structure ErrorEvent where
  message : String
deriving Repr, DecidableEq

/-- What a worker can deliver to the dispatcher: an application message
(`message` event) or a transport-level error (`error` event). -/
inductive WorkerEvent where
  | msg (m : Message)
  | err (e : ErrorEvent)
deriving Repr, DecidableEq

/-- The caller-supplied `gltfNormalizedOverride` map: `none` is the JS
`undefined` argument; in the map, a kind is looked up as
`gltfNormalizedOverride[kind] !== undefined`. -/
def OverrideMap : Type := Option (List (String × Bool))

/-- Look up a kind in the override map (`gltfNormalizedOverride[kind]`). -/
def lookupOverride (ov : OverrideMap) (kind : String) : Option Bool :=
  match ov with
  | none => none
  | some entries => entries.lookup kind

/-- `applyGltfNormalizedOverride` (dracoDecoder.ts, lines 65–77): if the caller
supplied an override for this kind, the override value is returned; otherwise
the flag from the Draco data is returned. -/
def applyGltfNormalizedOverride (ov : OverrideMap) (kind : String) (normalized : Bool) : Bool :=
  match lookupOverride ov kind with
  | some b => b
  | none => normalized

/-- Whether `applyGltfNormalizedOverride` logs its warning: an override for the
kind exists and disagrees with the flag from the Draco data. -/
def overrideWarns (ov : OverrideMap) (kind : String) (normalized : Bool) : Bool :=
  match lookupOverride ov kind with
  | some b => normalized != b
  | none => false

instance {ε α : Type} [DecidableEq ε] [DecidableEq α] : DecidableEq (Except ε α) := fun a b =>
  match a, b with
  | .error e₁, .error e₂ =>
      if h : e₁ = e₂ then .isTrue (by rw [h]) else .isFalse (by simp [h])
  | .ok a₁, .ok a₂ =>
      if h : a₁ = a₂ then .isTrue (by rw [h]) else .isFalse (by simp [h])
  | .error _, .ok _ => .isFalse (by simp)
  | .ok _, .error _ => .isFalse (by simp)

/-- Dispatcher state for one worker-pool decode job: the accumulators
`resultIndices` / `resultAttributes`, whether the `message`/`error` listeners
are still attached, the settled outcome of the job's promise (`Except` error
on `reject`, `MeshData` on `resolve`), and how many times `onComplete` (pool
release) has been invoked. -/
structure JobState where
  resultIndices : Option IndexData := none
  resultAttributes : List AttributeData := []
  listening : Bool := true
  settled : Option (Except ErrorEvent MeshData) := none
  completions : Nat := 0
deriving Repr, DecidableEq

/-- Initial job state, as set up by the `workerPool.push` callback
(dracoDecoder.ts, lines 82–122): empty accumulators, listeners attached. -/
def JobState.initial : JobState := {}

/-- One step of the dispatcher: delivery of one worker event to the job.
When the listeners have been removed the handlers are not invoked and the
state is unchanged. Otherwise this is exactly `onError` (lines 86–91) or the
`onMessage` switch (lines 93–119): `indices` overwrites `resultIndices`;
`attribute` appends to `resultAttributes` with `applyGltfNormalizedOverride`
applied to the normalized flag; `decodeMeshDone` removes both listeners,
resolves the promise with the accumulated response and calls `onComplete`;
an error event removes both listeners, rejects and calls `onComplete`. -/
def processEvent (ov : OverrideMap) (s : JobState) (ev : WorkerEvent) : JobState :=
  if s.listening then
    match ev with
    | .err e =>
        { s with listening := false, settled := some (.error e),
                 completions := s.completions + 1 }
    | .msg m =>
        match m with
        | .indices d => { s with resultIndices := some d }
        | .attribute kind data size byteOffset byteStride normalized =>
            { s with resultAttributes := s.resultAttributes ++
                [{ kind := kind, data := data, size := size, byteOffset := byteOffset,
                   byteStride := byteStride,
                   normalized := applyGltfNormalizedOverride ov kind normalized }] }
        | .decodeMeshDone totalVertices =>
            { s with listening := false,
                     settled := some (.ok { indices := s.resultIndices,
                                            attributes := s.resultAttributes,
                                            totalVertices := totalVertices }),
                     completions := s.completions + 1 }
  else
    s

/-- Run one decode job's dispatcher over a sequence of worker events. -/
def runJob (ov : OverrideMap) (events : List WorkerEvent) : JobState :=
  events.foldl (processEvent ov) JobState.initial

/-- A message is non-terminal when it is not `decodeMeshDone`. -/
def Message.isDone : Message → Bool
  | .decodeMeshDone _ => true
  | _ => false

/-- The indices accumulated from a message list starting from `init`: the
payload of the last `indices` message (the handler overwrites
`resultIndices`), or `init` when there is none. -/
def lastIndicesFrom (init : Option IndexData) (ms : List Message) : Option IndexData :=
  ms.foldl (fun acc m => match m with | .indices d => some d | _ => acc) init

/-- The indices accumulated from a message list: the payload of the last
`indices` message (the handler overwrites `resultIndices`). -/
def lastIndices (ms : List Message) : Option IndexData :=
  lastIndicesFrom none ms

/-- The settle/release discipline of one job's state: the listeners are
attached exactly while the promise is unsettled, and `onComplete` has been
invoked exactly once when settled and never before. -/
def JobState.settledOnce (s : JobState) : Prop :=
  s.listening = !s.settled.isSome ∧ s.completions = (if s.settled.isSome then 1 else 0)

/-- The attributes accumulated from a message list, in arrival order, with the
normalization override applied. -/
def collectAttributes (ov : OverrideMap) (ms : List Message) : List AttributeData :=
  ms.filterMap fun m =>
    match m with
    | .attribute kind data size byteOffset byteStride normalized =>
        some { kind := kind, data := data, size := size, byteOffset := byteOffset,
               byteStride := byteStride,
               normalized := applyGltfNormalizedOverride ov kind normalized }
    | _ => none

/-! ## Codec base (`dracoCodec.ts`) -/

/-- An externally supplied `AutoReleaseWorkerPool` object (opaque). -/
structure WorkerPoolRef where
  id : Nat
deriving Repr, DecidableEq

/-- A caller-provided codec JS module (`config.jsModule`, opaque). -/
structure JsModule where
  id : Nat
deriving Repr, DecidableEq

/-- A caller-provided WebAssembly binary buffer (`config.wasmBinary`, opaque). -/
structure WasmBinaryBuf where
  id : Nat
deriving Repr, DecidableEq

/-- The resolved value of `codecInfo.wasmBinaryPromise`: the provided buffer,
or the bytes fetched from `wasmBinaryUrl`. -/
inductive WasmBinary where
  | provided (b : WasmBinaryBuf)
  | fetched (url : String)
deriving Repr, DecidableEq

/-- `IDracoCodecConfiguration` (dracoCodec.ts, lines 10–48). `none` models an
absent (JS `undefined`) field. -/
structure IDracoCodecConfiguration where
  wasmUrl : Option String := none
  wasmBinaryUrl : Option String := none
  fallbackUrl : Option String := none
  numWorkers : Option Nat := none
  workerPool : Option WorkerPoolRef := none
  wasmBinary : Option WasmBinaryBuf := none
  jsModule : Option JsModule := none
deriving Repr, DecidableEq

/-- The runtime environment probed by the codec: presence of
`navigator` / `navigator.hardwareConcurrency`, of the `Worker`, `URL` and
`WebAssembly` globals, and whether the decoder module
(`DracoDecoderModule`) is already in global scope. -/
structure Env where
  navigatorPresent : Bool
  hardwareConcurrency : Option Nat
  workerSupported : Bool
  urlSupported : Bool
  webAssemblySupported : Bool
  moduleInScope : Bool
deriving Repr, DecidableEq

/-- JS truthiness of an optional numeric value (`undefined` and `0` are falsy). -/
def natTruthy : Option Nat → Bool
  | none => false
  | some n => !(n == 0)

/-- JS truthiness of an optional string (`undefined` and `""` are falsy). -/
def strTruthy : Option String → Bool
  | none => false
  | some s => !(s == "")

/-- `_GetDefaultNumWorkers` (dracoCodec.ts, lines 53–60): 1 when `navigator`
is not an object or `hardwareConcurrency` is falsy, else 50% of the logical
processors capped at 4 (`Math.floor(hc * 0.5)` is `hc / 2` on naturals). -/
def _GetDefaultNumWorkers (env : Env) : Nat :=
  if !env.navigatorPresent || !natTruthy env.hardwareConcurrency then 1
  else min (env.hardwareConcurrency.getD 0 / 2) 4

/-- `Tools._DefaultCdnUrl`. Only its truthiness matters to the codec. -/
def _DefaultCdnUrl : String := "https://cdn.babylonjs.com"

/-- `DefaultDecoderConfig` (dracoDecoder.ts, lines 24–28): the decoder's
`_defaultConfig`. -/
def DefaultDecoderConfig : IDracoCodecConfiguration :=
  { wasmUrl := some (_DefaultCdnUrl ++ "/draco_wasm_wrapper_gltf.js")
    wasmBinaryUrl := some (_DefaultCdnUrl ++ "/draco_decoder_gltf.wasm")
    fallbackUrl := some (_DefaultCdnUrl ++ "/draco_decoder_gltf.js") }

/-- The merged configuration
`{ numWorkers: _GetDefaultNumWorkers(), ...this._defaultConfig, ..._config }`
(dracoCodec.ts, line 105), for the decoder subclass whose `_defaultConfig` is
`DefaultDecoderConfig`. -/
structure MergedConfig where
  wasmUrl : Option String
  wasmBinaryUrl : Option String
  fallbackUrl : Option String
  numWorkers : Nat
  workerPool : Option WorkerPoolRef
  wasmBinary : Option WasmBinaryBuf
  jsModule : Option JsModule
deriving Repr, DecidableEq

/-- Object-spread merge of the caller config over the defaults. -/
def mergeConfig (env : Env) (c : IDracoCodecConfiguration) : MergedConfig :=
  { wasmUrl := c.wasmUrl.orElse fun _ => DefaultDecoderConfig.wasmUrl
    wasmBinaryUrl := c.wasmBinaryUrl.orElse fun _ => DefaultDecoderConfig.wasmBinaryUrl
    fallbackUrl := c.fallbackUrl.orElse fun _ => DefaultDecoderConfig.fallbackUrl
    numWorkers := c.numWorkers.getD (_GetDefaultNumWorkers env)
    workerPool := c.workerPool
    wasmBinary := c.wasmBinary
    jsModule := c.jsModule }

/-- Modelled from the spec: `Tools.GetBabylonScriptURL` (Misc/tools.ts, not
under src/) resolves a script url; it yields `""` for a missing url and the
resolved url otherwise (modelled as the url itself). -/
def getBabylonScriptURL (url : Option String) : String := url.getD ""

/-- `codecInfo` (dracoCodec.ts, lines 121–130): the script url (empty when not
needed) and the resolved value of `wasmBinaryPromise`. The wasm pair is used
when `wasmUrl` and `wasmBinaryUrl` are truthy and `WebAssembly` is an object;
otherwise the fallback url is used and no binary is fetched. -/
structure CodecInfo where
  url : String
  wasmBinary : Option WasmBinary
deriving Repr, DecidableEq

/-- Compute `codecInfo` from the merged config. -/
def computeCodecInfo (env : Env) (config : MergedConfig) (urlNeeded : Bool) : CodecInfo :=
  if strTruthy config.wasmUrl && strTruthy config.wasmBinaryUrl && env.webAssemblySupported then
    { url := if urlNeeded then getBabylonScriptURL config.wasmUrl else ""
      wasmBinary := some (match config.wasmBinary with
        | some b => .provided b
        | none => .fetched (getBabylonScriptURL config.wasmBinaryUrl)) }
  else
    { url := if urlNeeded then getBabylonScriptURL config.fallbackUrl else ""
      wasmBinary := none }

/-- Errors surfaced by the codec. `undefinedIsNotAFunction` is the TypeError
raised when `_createModuleAsync` invokes the global `DracoDecoderModule` while
it is not in scope (and no `jsModule` was supplied). -/
inductive DracoError where
  | moduleUnavailable
  | undefinedIsNotAFunction
  | decoderNotInitialized
deriving Repr, DecidableEq

/-- Where the created module instance came from. -/
inductive ModuleSource where
  | fromJsModule (m : JsModule)
  | fromGlobal
deriving Repr, DecidableEq

/-- The resolved `{ module }` of `_modulePromise`. -/
structure CreatedModule where
  source : ModuleSource
  wasmBinary : Option WasmBinary
deriving Repr, DecidableEq

/-- `DracoDecoderClass._createModuleAsync` (dracoDecoder.ts, lines 42–45):
`(jsModule || DracoDecoderModule)({ wasmBinary })`. When no `jsModule` is
supplied and the global is not defined, the call is a TypeError. -/
def _createModuleAsync (globalAvailable : Bool) (wasmBinary : Option WasmBinary)
    (jsModule : Option JsModule) : Except DracoError CreatedModule :=
  match jsModule with
  | some m => .ok { source := .fromJsModule m, wasmBinary := wasmBinary }
  | none =>
      if globalAvailable then .ok { source := .fromGlobal, wasmBinary := wasmBinary }
      else .error .undefinedIsNotAFunction

/-- The eventual outcome of the computation memoized in `_modulePromise`,
together with whether `Tools.LoadBabylonScriptAsync` was invoked. -/
structure ModuleInit where
  scriptLoaded : Bool
  result : Except DracoError CreatedModule
deriving Repr, DecidableEq

/-- The `_modulePromise` computation (dracoCodec.ts, lines 145–155), for the
decoder subclass (`_isModuleAvailable()` is `Env.moduleInScope`). As written,
the source guards the script load with `if (this._isModuleAvailable())`: the
script is loaded — and the "Draco codec module is not available" error can be
thrown — only when the global module is ALREADY in scope. When the module is
not in scope, control falls through directly to `_createModuleAsync`. -/
def resolveModulePromise (env : Env) (config : MergedConfig) (info : CodecInfo) : ModuleInit :=
  if env.moduleInScope then
    if config.jsModule.isNone then
      if info.url == "" then
        { scriptLoaded := false, result := .error .moduleUnavailable }
      else
        { scriptLoaded := true
          result := _createModuleAsync true info.wasmBinary config.jsModule }
    else
      { scriptLoaded := false
        result := _createModuleAsync true info.wasmBinary config.jsModule }
  else
    { scriptLoaded := false
      result := _createModuleAsync false info.wasmBinary config.jsModule }

/-- The resolved value of `_workerPoolPromise`: the adopted external pool, or
the `AutoReleaseWorkerPool` constructed with `numberOfWorkers` workers,
bootstrapped with the fetched binary and script url. -/
inductive PoolPromise where
  | external (p : WorkerPoolRef)
  | constructed (numWorkers : Nat) (wasmBinary : Option WasmBinary) (url : String)
deriving Repr, DecidableEq

/-- The memoized state of a `DracoCodec` instance: `_workerPoolPromise` and
`_modulePromise` (dracoCodec.ts, lines 67–68), each modelled by its resolved
value when present. -/
structure CodecState where
  workerPoolPromise : Option PoolPromise := none
  modulePromise : Option ModuleInit := none
deriving Repr, DecidableEq

/-- What one `initialize` call did: whether the already-initialized warning
was logged (the call was then a no-op), and the caller configuration that was
applied when the call proceeded. -/
structure InitLog where
  warned : Bool
  applied : Option IDracoCodecConfiguration
deriving Repr, DecidableEq

/-- `DracoCodec.initialize` (dracoCodec.ts, lines 99–158): guard on either
memoized promise (warn and return unchanged); else merge the config; adopt an
external pool if supplied; else decide `useWorkers` from the worker count and
`Worker`/`URL` support, compute `codecInfo`, and install either the
worker-pool promise or the module promise. -/
def initializeCodec (env : Env) (s : CodecState) (cfg : IDracoCodecConfiguration) :
    CodecState × InitLog :=
  if s.workerPoolPromise.isSome || s.modulePromise.isSome then
    (s, { warned := true, applied := none })
  else
    let config := mergeConfig env cfg
    match config.workerPool with
    | some pool =>
        ({ s with workerPoolPromise := some (.external pool) },
         { warned := false, applied := some cfg })
    | none =>
        let numberOfWorkers := config.numWorkers
        let useWorkers := !(numberOfWorkers == 0) && env.workerSupported && env.urlSupported
        let urlNeeded := useWorkers || (!useWorkers && config.jsModule.isNone)
        let info := computeCodecInfo env config urlNeeded
        if useWorkers then
          ({ s with
               workerPoolPromise := some (.constructed numberOfWorkers info.wasmBinary info.url) },
           { warned := false, applied := some cfg })
        else
          ({ s with modulePromise := some (resolveModulePromise env config info) },
           { warned := false, applied := some cfg })

/-- A sequence of `initialize` calls on one instance, returning the final
state and the per-call logs in call order. -/
def initSeq (env : Env) (cfgs : List IDracoCodecConfiguration) :
    CodecState × List InitLog :=
  cfgs.foldl
    (fun acc cfg =>
      ((initializeCodec env acc.1 cfg).1, acc.2 ++ [(initializeCodec env acc.1 cfg).2]))
    ({}, [])

/-- `DracoCodec.dispose` (dracoCodec.ts, lines 164–173): when the worker-pool
promise exists, `dispose()` is invoked on the resolved pool — whichever pool
that promise holds; then both memoized promises are deleted. Returns the new
state and the pool on which `dispose()` was invoked, if any. -/
def dispose (s : CodecState) : CodecState × Option PoolPromise :=
  ({ workerPoolPromise := none, modulePromise := none }, s.workerPoolPromise)

/-- The route taken by `decodeMeshToMeshDataAsync` (dracoDecoder.ts,
lines 79–160). -/
inductive DecodeRoute where
  | pool (p : PoolPromise)
  | inProcess (m : ModuleInit)
deriving Repr, DecidableEq

/-- The dispatch decision of `decodeMeshToMeshDataAsync`: the worker-pool path
when `_workerPoolPromise` exists, else the in-process path when
`_modulePromise` exists, else the synchronous throw
"Draco decoder module is not available. Have you called initialize()?"
with no decoding work performed. -/
def decodeMeshRoute (s : CodecState) : Except DracoError DecodeRoute :=
  match s.workerPoolPromise with
  | some p => .ok (.pool p)
  | none =>
      match s.modulePromise with
      | some m => .ok (.inProcess m)
      | none => .error .decoderNotInitialized

/-! ## In-process decode path (`dracoDecoder.ts`, lines 131–156) -/

/-- An attribute as emitted by the decoder module through the attribute
callback of `decodeMesh`: raw layout and the normalization flag reported by
the decompressed stream. -/
structure RawAttribute where
  kind : String
  data : List Int
  size : Nat
  byteOffset : Nat
  byteStride : Nat
  normalized : Bool
deriving Repr, DecidableEq

/-- Modelled from the spec: `decodeMesh` (dracoCompressionWorker.ts, not under
src/) "produces an index array and a set of typed attribute arrays" — it
invokes the indices callback with the decoded index buffer (when present),
invokes the attribute callback once per decoded attribute in discovery order,
and returns the decoded point count. A value of this type is that emission. -/
structure DecodeMeshOutput where
  indices : Option IndexData
  attributes : List RawAttribute
  numPoints : Nat
deriving Repr, DecidableEq

/-- The in-process branch of `decodeMeshToMeshDataAsync` (dracoDecoder.ts,
lines 131–156): runs `decodeMesh` with callbacks that store the indices and
push each attribute. The pushed record carries the reported `normalized` flag
unchanged — the local `applyGltfNormalizedOverride` is not called on this
path (contrast with line 107 on the worker path). -/
def decodeInProcess (decoded : DecodeMeshOutput) (gltfNormalizedOverride : OverrideMap) :
    MeshData :=
  { indices := decoded.indices
    attributes := decoded.attributes.map fun a =>
      { kind := a.kind, data := a.data, size := a.size, byteOffset := a.byteOffset,
        byteStride := a.byteStride, normalized := a.normalized }
    totalVertices := decoded.numPoints }

/-- The message stream a worker emits for the same decoded mesh (the worker
runs `decodeMesh` and posts one message per callback, then `decodeMeshDone`
with the point count): used to compare the two paths on identical decoder
output. -/
def workerMessagesOf (decoded : DecodeMeshOutput) : List Message :=
  (match decoded.indices with
    | some d => [Message.indices d]
    | none => []) ++
  decoded.attributes.map (fun a =>
    Message.attribute a.kind a.data a.size a.byteOffset a.byteStride a.normalized) ++
  [Message.decodeMeshDone decoded.numPoints]

/-! ## Theorems -/

/-- C2: `decodeMeshToMeshDataAsync` routes to worker-pool dispatch when the
memoized worker-pool promise exists, otherwise to the direct in-process
decoder call when the memoized module promise exists; when neither memoized
promise exists the call fails with the decoder-unavailable error and performs
no decoding work (the route is the synchronous throw, carrying no decode
result). -/
theorem decodeMeshRoute_dispatch (s : CodecState) :
    (∀ p, s.workerPoolPromise = some p → decodeMeshRoute s = .ok (.pool p)) ∧
    (∀ m, s.workerPoolPromise = none → s.modulePromise = some m →
      decodeMeshRoute s = .ok (.inProcess m)) ∧
    (s.workerPoolPromise = none → s.modulePromise = none →
      decodeMeshRoute s = .error .decoderNotInitialized) := by
  refine ⟨fun p hp => ?_, fun m hp hm => ?_, fun hp hm => ?_⟩ <;>
    simp [decodeMeshRoute, hp] <;> simp [hm]

/-- Witness for C2: the three routes at concrete states. -/
theorem decodeMeshRoute_dispatch_witness :
    decodeMeshRoute { workerPoolPromise := some (.external ⟨1⟩), modulePromise := none } =
        .ok (.pool (.external ⟨1⟩)) ∧
    decodeMeshRoute
        { workerPoolPromise := none,
          modulePromise := some { scriptLoaded := false, result := .error .moduleUnavailable } } =
        .ok (.inProcess { scriptLoaded := false, result := .error .moduleUnavailable }) ∧
    decodeMeshRoute { workerPoolPromise := none, modulePromise := none } =
        .error .decoderNotInitialized :=
  ⟨(decodeMeshRoute_dispatch _).1 _ rfl,
   (decodeMeshRoute_dispatch _).2.1 _ rfl rfl,
   (decodeMeshRoute_dispatch _).2.2 rfl rfl⟩

/-- C6 counterexample: a worker pool supplied externally through the
configuration IS torn down by `dispose()`. Initializing with
`workerPool := some ⟨7⟩` and then disposing invokes `dispose()` on exactly
that external pool, contradicting "a worker pool supplied externally through
the configuration is adopted without being disposed". -/
theorem dispose_external_pool_cex :
    (dispose (initializeCodec
        { navigatorPresent := true, hardwareConcurrency := some 8, workerSupported := true,
          urlSupported := true, webAssemblySupported := true, moduleInScope := false }
        {} { workerPool := some ⟨7⟩ }).1).2 = some (.external ⟨7⟩) := by
  rfl

/-- C6 (amended): `dispose()` invokes `dispose()` on whichever worker pool the
memoized pool promise holds — constructed by the codec or supplied externally
— and in every case clears both memoized promises, so a subsequent
`initialize` proceeds without the already-initialized guard (no warning). -/
theorem dispose_clears_and_releases (s : CodecState) (env : Env)
    (cfg : IDracoCodecConfiguration) :
    dispose s = ({ workerPoolPromise := none, modulePromise := none }, s.workerPoolPromise) ∧
    (initializeCodec env (dispose s).1 cfg).2.warned = false := by
  refine ⟨rfl, ?_⟩
  show (initializeCodec env { workerPoolPromise := none, modulePromise := none } cfg).2.warned
      = false
  unfold initializeCodec
  cases h : (mergeConfig env cfg).workerPool <;> simp [h] <;> split <;> rfl

/-- C7: evaluation of the code at the failing input. With no decoder module in
global scope, no `jsModule`, and all three urls configured empty (so neither a
wasm pair nor a fallback url is usable), `initialize` installs a module
promise that fails by invoking the undefined global module factory
(`undefinedIsNotAFunction`) — not the "Draco codec module is not available"
error the claim requires — and never loads the script. Conversely, when the
module IS already in scope (second conjunct, default urls), the code loads
the script anyway (`scriptLoaded = true`): the `_isModuleAvailable` guard at
dracoCodec.ts line 146 is inverted. -/
theorem moduleGuard_inverted_eval :
    (initializeCodec
        { navigatorPresent := false, hardwareConcurrency := none, workerSupported := false,
          urlSupported := false, webAssemblySupported := false, moduleInScope := false }
        {} { wasmUrl := some "", wasmBinaryUrl := some "", fallbackUrl := some "",
             numWorkers := some 0 }).1.modulePromise =
      some { scriptLoaded := false, result := .error .undefinedIsNotAFunction } ∧
    (initializeCodec
        { navigatorPresent := false, hardwareConcurrency := none, workerSupported := false,
          urlSupported := false, webAssemblySupported := false, moduleInScope := true }
        {} { numWorkers := some 0 }).1.modulePromise =
      some { scriptLoaded := true,
             result := .ok { source := .fromGlobal, wasmBinary := none } } := by
  constructor <;> rfl

/-- C8: when the caller's configuration does not specify a worker count, the
merged configuration uses `_GetDefaultNumWorkers`, which is
`min(floor(logicalProcessors * 0.5), 4)` when the logical processor count is
known and nonzero, and `1` when it is unknown (no `navigator` object or no
`hardwareConcurrency` value). -/
theorem defaultNumWorkers_spec (env : Env) (cfg : IDracoCodecConfiguration)
    (hcfg : cfg.numWorkers = none) :
    (mergeConfig env cfg).numWorkers = _GetDefaultNumWorkers env ∧
    (∀ n, env.navigatorPresent = true → env.hardwareConcurrency = some n → n ≠ 0 →
      _GetDefaultNumWorkers env = min (n / 2) 4) ∧
    ((env.navigatorPresent = false ∨ env.hardwareConcurrency = none ∨
        env.hardwareConcurrency = some 0) →
      _GetDefaultNumWorkers env = 1) := by
  refine ⟨by simp [mergeConfig, hcfg], fun n hnav hhc hn => ?_, fun h => ?_⟩
  · simp [_GetDefaultNumWorkers, hnav, hhc, natTruthy, hn]
  · rcases h with h | h | h <;> simp [_GetDefaultNumWorkers, h, natTruthy]

/-- Witness for C8: a configuration without `numWorkers`, on an environment
with 8 logical processors, merges to worker count `min (8 / 2) 4 = 4`; with
`navigator` absent the default is 1. -/
theorem defaultNumWorkers_spec_witness :
    (mergeConfig
        { navigatorPresent := true, hardwareConcurrency := some 8, workerSupported := true,
          urlSupported := true, webAssemblySupported := true, moduleInScope := false }
        {}).numWorkers = 4 ∧
    _GetDefaultNumWorkers
        { navigatorPresent := false, hardwareConcurrency := none, workerSupported := true,
          urlSupported := true, webAssemblySupported := true, moduleInScope := false } = 1 := by
  have h8 := defaultNumWorkers_spec
    { navigatorPresent := true, hardwareConcurrency := some 8, workerSupported := true,
      urlSupported := true, webAssemblySupported := true, moduleInScope := false } {} rfl
  have h0 := defaultNumWorkers_spec
    { navigatorPresent := false, hardwareConcurrency := none, workerSupported := true,
      urlSupported := true, webAssemblySupported := true, moduleInScope := false } {} rfl
  refine ⟨?_, h0.2.2 (Or.inl rfl)⟩
  rw [h8.1, h8.2.1 8 rfl rfl (by decide)]
  decide

/-- C9: with `numWorkers = 0` and no external worker pool, `initialize` takes
the in-process path: no worker pool is installed, the memoized module promise
is installed instead, and a subsequent decode routes to the in-process
decoder call. -/
theorem zeroWorkers_inProcess (env : Env) (cfg : IDracoCodecConfiguration)
    (hpool : cfg.workerPool = none) (hnum : (mergeConfig env cfg).numWorkers = 0) :
    ∃ m, (initializeCodec env {} cfg).1.workerPoolPromise = none ∧
      (initializeCodec env {} cfg).1.modulePromise = some m ∧
      decodeMeshRoute (initializeCodec env {} cfg).1 = .ok (.inProcess m) := by
  have hp : (mergeConfig env cfg).workerPool = none := hpool
  refine ⟨resolveModulePromise env (mergeConfig env cfg)
      (computeCodecInfo env (mergeConfig env cfg)
        (!(mergeConfig env cfg).jsModule.isNone && false || (mergeConfig env cfg).jsModule.isNone)),
    ?_⟩
  unfold initializeCodec
  simp only [hp, hnum]
  simp [decodeMeshRoute, CodecState.workerPoolPromise]

/-- Witness for C9: a concrete configuration with `numWorkers := 0` and no
worker pool installs only the module promise and routes in-process. -/
theorem zeroWorkers_inProcess_witness :
    ({ numWorkers := some 0, jsModule := some ⟨3⟩ } :
        IDracoCodecConfiguration).workerPool = none ∧
    (mergeConfig
        { navigatorPresent := true, hardwareConcurrency := some 8, workerSupported := true,
          urlSupported := true, webAssemblySupported := true, moduleInScope := false }
        { numWorkers := some 0, jsModule := some ⟨3⟩ }).numWorkers = 0 ∧
    ∃ m, (initializeCodec
        { navigatorPresent := true, hardwareConcurrency := some 8, workerSupported := true,
          urlSupported := true, webAssemblySupported := true, moduleInScope := false }
        {} { numWorkers := some 0, jsModule := some ⟨3⟩ }).1.workerPoolPromise = none ∧
      (initializeCodec
        { navigatorPresent := true, hardwareConcurrency := some 8, workerSupported := true,
          urlSupported := true, webAssemblySupported := true, moduleInScope := false }
        {} { numWorkers := some 0, jsModule := some ⟨3⟩ }).1.modulePromise = some m ∧
      decodeMeshRoute (initializeCodec
        { navigatorPresent := true, hardwareConcurrency := some 8, workerSupported := true,
          urlSupported := true, webAssemblySupported := true, moduleInScope := false }
        {} { numWorkers := some 0, jsModule := some ⟨3⟩ }).1 = .ok (.inProcess m) :=
  ⟨rfl, rfl, zeroWorkers_inProcess _ _ rfl rfl⟩

/-- C1: evaluation of the code at the failing input. For the same decoder
output — one attribute of kind "position" with stream-reported
`normalized = false` — and the caller override `position ↦ true`: the
worker-pool path resolves the job with `normalized = true` (override applied,
and the disagreement triggers the warning), but the in-process path returns
`normalized = false`: `decodeMeshToMeshDataAsync`'s in-process branch pushes
the raw flag without calling `applyGltfNormalizedOverride`, so the claimed
property fails on the in-process path. -/
theorem normalizedOverride_inProcess_ignored_eval :
    (runJob (some [("position", true)])
        ((workerMessagesOf
            { indices := none,
              attributes := [{ kind := "position", data := [1, 2], size := 3, byteOffset := 0,
                               byteStride := 12, normalized := false }],
              numPoints := 5 }).map WorkerEvent.msg)).settled =
      some (.ok
        { indices := none,
          attributes := [{ kind := "position", data := [1, 2], size := 3, byteOffset := 0,
                           byteStride := 12, normalized := true }],
          totalVertices := 5 }) ∧
    overrideWarns (some [("position", true)]) "position" false = true ∧
    (decodeInProcess
        { indices := none,
          attributes := [{ kind := "position", data := [1, 2], size := 3, byteOffset := 0,
                           byteStride := 12, normalized := false }],
          numPoints := 5 } (some [("position", true)])).attributes =
      [{ kind := "position", data := [1, 2], size := 3, byteOffset := 0,
         byteStride := 12, normalized := false }] := by
  refine ⟨?_, ?_, ?_⟩ <;> rfl

/-! ### Dispatcher lemmas -/

/-- Folding a list of non-terminal messages over a live job state leaves the
listeners attached and the promise unsettled, and only updates the two
accumulators: `resultIndices` by last-write-wins, `resultAttributes` by
appending the attribute messages in arrival order with the override applied. -/
theorem foldl_msgs_live (ov : OverrideMap) (ms : List Message)
    (h : ∀ m ∈ ms, m.isDone = false) (s : JobState) (hs : s.listening = true) :
    (ms.map WorkerEvent.msg).foldl (processEvent ov) s =
      { s with resultIndices := lastIndicesFrom s.resultIndices ms,
               resultAttributes := s.resultAttributes ++ collectAttributes ov ms } := by
  induction ms generalizing s with
  | nil => simp [lastIndicesFrom, collectAttributes]
  | cons m ms ih =>
    have hm : m.isDone = false := h m (List.mem_cons_self m ms)
    have hms : ∀ m' ∈ ms, m'.isDone = false := fun m' hm' => h m' (List.mem_cons_of_mem m hm')
    cases m with
    | indices d =>
        simp only [List.map_cons, List.foldl_cons, processEvent, hs, if_pos]
        rw [ih hms _ (by simp [hs])]
        simp [lastIndicesFrom, collectAttributes]
    | «attribute» kind data size byteOffset byteStride normalized =>
        simp only [List.map_cons, List.foldl_cons, processEvent, hs, if_pos]
        rw [ih hms _ (by simp [hs])]
        simp [lastIndicesFrom, collectAttributes]
    | decodeMeshDone tv => simp [Message.isDone] at hm

/-- Once the listeners are removed, no further event changes the job state. -/
theorem processEvent_removed (ov : OverrideMap) (s : JobState) (ev : WorkerEvent)
    (h : s.listening = false) : processEvent ov s ev = s := by
  simp [processEvent, h]

/-- Once the listeners are removed, no sequence of further events changes the
job state. -/
theorem foldl_removed (ov : OverrideMap) (events : List WorkerEvent) (s : JobState)
    (h : s.listening = false) : events.foldl (processEvent ov) s = s := by
  induction events with
  | nil => rfl
  | cons ev evs ih => rw [List.foldl_cons, processEvent_removed ov s ev h]; exact ih

/-- One dispatcher step preserves the settle/release discipline. -/
theorem processEvent_settledOnce (ov : OverrideMap) (s : JobState) (ev : WorkerEvent)
    (h : s.settledOnce) : (processEvent ov s ev).settledOnce := by
  obtain ⟨h1, h2⟩ := h
  by_cases hl : s.listening = true
  · have hsn : s.settled = none := by
      cases hq : s.settled with
      | none => rfl
      | some r => simp [hq] at h1; rw [h1] at hl; cases hl
    have hset : s.settled.isSome = false := by simp [hsn]
    cases ev with
    | err e => constructor <;> simp [processEvent, hl, h2, hset]
    | msg m =>
        cases m with
        | indices d => exact ⟨by simpa [processEvent, hl] using h1,
            by simpa [processEvent, hl] using h2⟩
        | «attribute» kind data size byteOffset byteStride normalized =>
            exact ⟨by simpa [processEvent, hl] using h1,
              by simpa [processEvent, hl] using h2⟩
        | decodeMeshDone tv => constructor <;> simp [processEvent, hl, h2, hset]
  · simp only [Bool.not_eq_true] at hl
    rw [processEvent_removed ov s ev hl]
    exact ⟨h1, h2⟩

/-- The settle/release discipline holds along any event sequence. -/
theorem foldl_settledOnce (ov : OverrideMap) (events : List WorkerEvent) (s : JobState)
    (h : s.settledOnce) : (events.foldl (processEvent ov) s).settledOnce := by
  induction events generalizing s with
  | nil => exact h
  | cons ev evs ih => exact ih _ (processEvent_settledOnce ov s ev h)

/-- The settle/release discipline holds for every run of a decode job. -/
theorem runJob_settledOnce (ov : OverrideMap) (events : List WorkerEvent) :
    (runJob ov events).settledOnce :=
  foldl_settledOnce ov events JobState.initial ⟨rfl, rfl⟩

/-! ### Claim theorems for the dispatcher -/

/-- C3: for a worker-pool decode job receiving non-terminal messages followed
by the terminal `decodeMeshDone`, the dispatcher resolves the job's promise
with exactly the accumulated indices (last `indices` message), the
accumulated attribute list in arrival order, and the `totalVertices` carried
by the done message, and invokes `onComplete` (releasing the worker back to
the pool) exactly once; before the terminal message — after any prefix of the
non-terminal messages — the promise is unsettled and the worker unreleased:
the caller never observes a partial result. -/
theorem job_resolves_accumulated (ov : OverrideMap) (ms : List Message) (tv : Nat)
    (h : ∀ m ∈ ms, m.isDone = false) :
    (runJob ov (ms.map .msg ++ [.msg (.decodeMeshDone tv)])).settled =
      some (.ok { indices := lastIndices ms, attributes := collectAttributes ov ms,
                  totalVertices := tv }) ∧
    (runJob ov (ms.map .msg ++ [.msg (.decodeMeshDone tv)])).completions = 1 ∧
    (∀ pre suf, ms = pre ++ suf →
      (runJob ov (pre.map .msg)).settled = none ∧
      (runJob ov (pre.map .msg)).completions = 0) := by
  have hfold := foldl_msgs_live ov ms h JobState.initial rfl
  have hrun : runJob ov (ms.map .msg ++ [.msg (.decodeMeshDone tv)]) =
      processEvent ov ((ms.map WorkerEvent.msg).foldl (processEvent ov) JobState.initial)
        (.msg (.decodeMeshDone tv)) := by
    rw [runJob, List.foldl_append, List.foldl_cons, List.foldl_nil]
  refine ⟨?_, ?_, ?_⟩
  · rw [hrun, hfold]
    simp [processEvent, JobState.initial, lastIndices]
  · rw [hrun, hfold]
    simp [processEvent, JobState.initial]
  · intro pre suf hps
    have hpre : ∀ m ∈ pre, m.isDone = false := fun m hm => h m (by rw [hps]; exact List.mem_append_left suf hm)
    have := foldl_msgs_live ov pre hpre JobState.initial rfl
    rw [runJob, this]
    exact ⟨rfl, rfl⟩

/-- Witness for C3: an `indices` message and one attribute followed by
`decodeMeshDone 7` resolve to exactly that accumulated response with one
release, and the prefix without the terminal message is unsettled. -/
theorem job_resolves_accumulated_witness :
    (runJob none ([Message.indices ⟨false, [0, 1, 2]⟩,
        Message.attribute "normal" [5] 3 0 12 true].map .msg ++
        [.msg (.decodeMeshDone 7)])).settled =
      some (.ok { indices := lastIndices [Message.indices ⟨false, [0, 1, 2]⟩,
                    Message.attribute "normal" [5] 3 0 12 true],
                  attributes := collectAttributes none [Message.indices ⟨false, [0, 1, 2]⟩,
                    Message.attribute "normal" [5] 3 0 12 true],
                  totalVertices := 7 }) ∧
    (runJob none ([Message.indices ⟨false, [0, 1, 2]⟩,
        Message.attribute "normal" [5] 3 0 12 true].map .msg ++
        [.msg (.decodeMeshDone 7)])).completions = 1 ∧
    (∀ pre suf, [Message.indices ⟨false, [0, 1, 2]⟩,
        Message.attribute "normal" [5] 3 0 12 true] = pre ++ suf →
      (runJob none (pre.map .msg)).settled = none ∧
      (runJob none (pre.map .msg)).completions = 0) :=
  job_resolves_accumulated none
    [Message.indices ⟨false, [0, 1, 2]⟩, Message.attribute "normal" [5] 3 0 12 true] 7
    (by decide)

/-- C4: for a worker-pool decode job whose worker reports a transport-level
error event after any sequence of non-terminal application messages, the
dispatcher rejects the job's promise with that error and still invokes
`onComplete` (releasing the worker back to the pool) exactly once: a failed
job does not leak a pool slot. -/
theorem job_rejects_error_releases (ov : OverrideMap) (ms : List Message) (e : ErrorEvent)
    (h : ∀ m ∈ ms, m.isDone = false) :
    (runJob ov (ms.map .msg ++ [.err e])).settled = some (.error e) ∧
    (runJob ov (ms.map .msg ++ [.err e])).completions = 1 := by
  have hfold := foldl_msgs_live ov ms h JobState.initial rfl
  have hrun : runJob ov (ms.map .msg ++ [.err e]) =
      processEvent ov ((ms.map WorkerEvent.msg).foldl (processEvent ov) JobState.initial)
        (.err e) := by
    rw [runJob, List.foldl_append, List.foldl_cons, List.foldl_nil]
  rw [hrun, hfold]
  exact ⟨by simp [processEvent, JobState.initial], by simp [processEvent, JobState.initial]⟩

/-- Witness for C4: a job that saw one attribute message and then a worker
error is rejected with that error and releases its slot once. -/
theorem job_rejects_error_releases_witness :
    (runJob none ([Message.attribute "position" [1] 3 0 12 false].map .msg ++
        [.err ⟨"script error"⟩])).settled = some (.error ⟨"script error"⟩) ∧
    (runJob none ([Message.attribute "position" [1] 3 0 12 false].map .msg ++
        [.err ⟨"script error"⟩])).completions = 1 :=
  job_rejects_error_releases none [Message.attribute "position" [1] 3 0 12 false]
    ⟨"script error"⟩ (by decide)

/-- C10: per decode job, both listeners are removed exactly when the job's
promise settles, so the promise settles at most once and `onComplete` (the
worker-slot release) runs exactly once per settled job; any events delivered
after the settling event leave the job state — including the settled response
— unchanged. -/
theorem job_settles_at_most_once (ov : OverrideMap) (events extra : List WorkerEvent)
    (r : Except ErrorEvent MeshData) (h : (runJob ov events).settled = some r) :
    runJob ov (events ++ extra) = runJob ov events ∧
    (runJob ov events).listening = false ∧
    (runJob ov events).completions = 1 := by
  have hso := runJob_settledOnce ov events
  have hl : (runJob ov events).listening = false := by rw [hso.1, h]; rfl
  refine ⟨?_, hl, ?_⟩
  · rw [runJob, List.foldl_append]
    exact foldl_removed ov extra _ hl
  · rw [hso.2, h]; rfl

/-- Witness for C10: a job settled by `decodeMeshDone 0` ignores a later
`indices` message and has released its slot exactly once. -/
theorem job_settles_at_most_once_witness :
    runJob none ([.msg (.decodeMeshDone 0)] ++ [.msg (.indices ⟨false, [1]⟩)]) =
      runJob none [.msg (.decodeMeshDone 0)] ∧
    (runJob none [.msg (.decodeMeshDone 0)]).listening = false ∧
    (runJob none [.msg (.decodeMeshDone 0)]).completions = 1 :=
  job_settles_at_most_once none [.msg (.decodeMeshDone 0)] [.msg (.indices ⟨false, [1]⟩)]
    (.ok { indices := none, attributes := [], totalVertices := 0 }) rfl

/-! ### Initialization lemmas -/

/-- When either memoized promise exists, `initialize` warns and is a no-op. -/
theorem initializeCodec_guard (env : Env) (s : CodecState) (cfg : IDracoCodecConfiguration)
    (hs : (s.workerPoolPromise.isSome || s.modulePromise.isSome) = true) :
    initializeCodec env s cfg = (s, { warned := true, applied := none }) := by
  unfold initializeCodec
  simp [hs]

/-- A first `initialize` on a fresh instance installs one of the two memoized
promises and logs the applied configuration without warning. -/
theorem initializeCodec_fresh (env : Env) (cfg : IDracoCodecConfiguration) :
    ((initializeCodec env {} cfg).1.workerPoolPromise.isSome ||
      (initializeCodec env {} cfg).1.modulePromise.isSome) = true ∧
    (initializeCodec env {} cfg).2 = { warned := false, applied := some cfg } := by
  unfold initializeCodec
  cases h : (mergeConfig env cfg).workerPool with
  | some pool => simp [h]
  | none =>
      simp only [h]
      constructor <;> (simp <;> split <;> simp)

/-- Every `initialize` call after one that installed a promise is a warned
no-op: the fold keeps the state and appends warned logs. -/
theorem initSeq_after_installed (env : Env) (cfgs : List IDracoCodecConfiguration)
    (s : CodecState) (logs : List InitLog)
    (hs : (s.workerPoolPromise.isSome || s.modulePromise.isSome) = true) :
    cfgs.foldl
      (fun acc cfg =>
        ((initializeCodec env acc.1 cfg).1, acc.2 ++ [(initializeCodec env acc.1 cfg).2]))
      (s, logs) =
    (s, logs ++ cfgs.map fun _ => { warned := true, applied := none }) := by
  induction cfgs generalizing logs with
  | nil => simp
  | cons c cs ih =>
      rw [List.foldl_cons]
      simp only [initializeCodec_guard env s c hs]
      have h2 := ih (logs ++ [({ warned := true, applied := none } : InitLog)])
      rw [h2]
      simp

/-- C5: if `initialize` is called while a worker-pool or module promise
already exists, it logs the warning and returns with the state unchanged and
no configuration applied; across any sequence of `initialize` calls on a
fresh instance, exactly the first call applies its configuration (one
pool/module installation) and every later call is a warned no-op, leaving the
state exactly as the first call built it. -/
theorem initialize_applies_first_config_once (env : Env) (c0 : IDracoCodecConfiguration)
    (cfgs : List IDracoCodecConfiguration) :
    (∀ s cfg, (s.workerPoolPromise.isSome || s.modulePromise.isSome) = true →
      initializeCodec env s cfg = (s, { warned := true, applied := none })) ∧
    (initSeq env (c0 :: cfgs)).2 =
      { warned := false, applied := some c0 } ::
        cfgs.map (fun _ => { warned := true, applied := none }) ∧
    (initSeq env (c0 :: cfgs)).1 = (initializeCodec env {} c0).1 := by
  have hfresh := initializeCodec_fresh env c0
  have hseq : initSeq env (c0 :: cfgs) =
      ((initializeCodec env {} c0).1,
        [(initializeCodec env {} c0).2] ++
          cfgs.map fun _ => { warned := true, applied := none }) := by
    rw [initSeq, List.foldl_cons]
    exact initSeq_after_installed env cfgs _ _ hfresh.1
  refine ⟨fun s cfg hs => initializeCodec_guard env s cfg hs, ?_, ?_⟩
  · rw [hseq]
    simp [hfresh.2]
  · rw [hseq]

/-- Witness for C5: two successive `initialize` calls with different
configurations — the first applies its configuration, the second is a warned
no-op. -/
theorem initialize_applies_first_config_once_witness :
    (initSeq
        { navigatorPresent := true, hardwareConcurrency := some 8, workerSupported := false,
          urlSupported := false, webAssemblySupported := false, moduleInScope := false }
        [{ numWorkers := some 0, jsModule := some ⟨1⟩ }, { numWorkers := some 2 }]).2 =
      [{ warned := false, applied := some { numWorkers := some 0, jsModule := some ⟨1⟩ } },
       { warned := true, applied := none }] := by
  have h := initialize_applies_first_config_once
    { navigatorPresent := true, hardwareConcurrency := some 8, workerSupported := false,
      urlSupported := false, webAssemblySupported := false, moduleInScope := false }
    { numWorkers := some 0, jsModule := some ⟨1⟩ } [{ numWorkers := some 2 }]
  simpa using h.2.1

end Draco
